import Mathlib

/-!
Verification development for the `usbreset` utility (`src/main.rs`).

The program resolves a user-supplied USB device identifier against the
sysfs device registry and issues a fixed reset ioctl to the matching
device node.  We embed the pure decision logic of the program: the
ioctl constant construction, the attribute-reading pipeline
(`sysfs_attr_raw` / `sysfs_attr`), the registry scan (`find_device`),
the control-path construction (`reset_device`), and the command-line
identifier parser in `main`.

File contents are modelled as strings; a registry entry is a record of
optional attribute-file contents (`none` models a missing or unreadable
attribute file).  Machine integers (`u16`, `usize`) are modelled as
`Nat` with explicit bounds where the source checks them.
-/

namespace UsbReset

/-! ### ioctl constant construction (lines 15-49 of main.rs) -/

def IOC_NRBITS : Nat := 8
def IOC_TYPEBITS : Nat := 8
def IOC_SIZEBITS : Nat := 14
def IOC_DIRBITS : Nat := 2

def IOC_NRSHIFT : Nat := 0
def IOC_TYPESHIFT : Nat := IOC_NRSHIFT + IOC_NRBITS
def IOC_SIZESHIFT : Nat := IOC_TYPESHIFT + IOC_TYPEBITS
def IOC_DIRSHIFT : Nat := IOC_SIZESHIFT + IOC_SIZEBITS

def IOC_NONE : Nat := 0

/-- The `_IOC!` macro: combine direction, type, number and size fields. -/
def iocEncode (dir ty nr size : Nat) : Nat :=
  (dir <<< IOC_DIRSHIFT) ||| (ty <<< IOC_TYPESHIFT) ||| (nr <<< IOC_NRSHIFT) |||
    (size <<< IOC_SIZESHIFT)

/-- The `_IO!` macro: an ioctl with no data transfer. -/
def ioEncode (ty nr : Nat) : Nat := iocEncode IOC_NONE ty nr 0

/-- Source: `const USBDEVFS_RESET: usize = _IO!(b'U' as usize, 20_usize);`. -/
def USBDEVFS_RESET : Nat := ioEncode 85 20

def USBDEVFS_PATH : String := "/dev/bus/usb/"

/-! ### Numeric string parsing (Rust `u16::from_str` / `u16::from_str_radix`)

Rust's integer parsing grammar for unsigned types is an optional `+`
sign followed by one or more digits of the given radix, with a range
check against the type's bounds; a leading `-` sign is rejected for
unsigned types (an invalid-digit error). -/

/-- Rust's digit decoding (`char::to_digit(radix)`): digit value of a
character when it is valid in the radix.  The three ranges are the code
points of `0`-`9`, `a`-`z` and `A`-`Z`. -/
def digitVal (radix : Nat) (c : Char) : Option Nat :=
  let v : Option Nat :=
    if 48 ≤ c.toNat ∧ c.toNat ≤ 57 then some (c.toNat - 48)
    else if 97 ≤ c.toNat ∧ c.toNat ≤ 122 then some (c.toNat - 97 + 10)
    else if 65 ≤ c.toNat ∧ c.toNat ≤ 90 then some (c.toNat - 65 + 10)
    else none
  match v with
  | some d => if d < radix then some d else none
  | none => none

/-- Accumulate digit characters left to right; `none` on any invalid digit. -/
def parseDigitsAcc (radix : Nat) : List Char → Nat → Option Nat
  | [], acc => some acc
  | c :: cs, acc =>
    match digitVal radix c with
    | some d => parseDigitsAcc radix cs (acc * radix + d)
    | none => none

/-- One or more digits in the given radix (no sign). -/
def parsePos (radix : Nat) (cs : List Char) : Option Nat :=
  match cs with
  | [] => none
  | _ => parseDigitsAcc radix cs 0

/-- Digits plus the `u16` range check (Rust checks overflow at each step;
since the accumulator is monotone this equals a final-value check). -/
def parseCore (radix : Nat) (cs : List Char) : Option Nat :=
  match parsePos radix cs with
  | some v => if v < 65536 then some v else none
  | none => none

/-- Rust `u16` parsing (`FromStr` and `from_str_radix` share this grammar):
an optional `+` sign, then digits, with the 16-bit range check; a leading
`-` is an error for the unsigned `u16`. -/
def parseU16 (radix : Nat) (cs : List Char) : Option Nat :=
  match cs with
  | c :: rest =>
    if c = '+' then parseCore radix rest
    else if c = '-' then none
    else parseCore radix cs
  | [] => none

/-! ### Attribute reading (`sysfs_attr_raw` / `sysfs_attr`, lines 68-86) -/

def WHITESPACE_CHARS : List Char := ['\n', '\t', ' ']

def isWsChar (c : Char) : Bool := c = '\n' || c = '\t' || c = ' '

/-- The trim in `sysfs_attr_raw`: `if s.ends_with(WHITESPACE_CHARS) { s.pop(); }` —
drop the final character when it is whitespace (a single `pop`). -/
def rtrimOne (cs : List Char) : List Char :=
  match cs.getLast? with
  | some c => if isWsChar c then cs.dropLast else cs
  | none => cs

/-- Function `sysfs_attr_raw` applied to a file content that was read successfully. -/
def sysfsAttrRaw (content : String) : String :=
  String.mk (rtrimOne content.data)

/-- Function `sysfs_attr::<u16>` applied to a file content that was read successfully:
trim, then parse as decimal `u16` (`FromStr`). -/
def sysfsAttrU16 (content : String) : Option Nat :=
  parseU16 10 (rtrimOne content.data)

/-- Reading a `u16` attribute from an optional file content; `none` models a
missing/unreadable file or a parse failure (both make `find_device` skip). -/
def attrU16 (o : Option String) : Option Nat :=
  match o with
  | some s => sysfsAttrU16 s
  | none => none

/-! ### Data model (lines 56-66) -/

inductive UsbDeviceIdentifier where
  | BusDev (bus dev : Nat)
  | VendorProduct (vid pid : Nat)
  | ProductName (name : String)
  deriving DecidableEq, Repr

structure UsbDevFsEntry where
  bus : Nat
  dev : Nat
  deriving DecidableEq, Repr

/-- A sysfs registry entry: the contents of its attribute files,
`none` when the file is missing or unreadable. -/
structure Entry where
  busnum : Option String := none
  devnum : Option String := none
  idVendor : Option String := none
  idProduct : Option String := none
  product : Option String := none
  deriving DecidableEq, Repr

/-- The error kinds the program distinguishes (std::io::ErrorKind subset). -/
inductive ErrKind where
  | NotFound
  | InvalidData
  | InvalidInput
  | Other
  deriving DecidableEq, Repr

/-! ### Device resolution (`find_device`, lines 88-126) -/

/-- Function `find_device`, with the registry listing given as the list of entries in
enumeration order.  Mirrors the Rust control flow: skip an entry when
`busnum`/`devnum` is missing or unparseable; for `VendorProduct`, skip on a
missing `idVendor`/`idProduct` but abort with `InvalidData` when one is
present and fails the base-16 `u16` parse; return the first match; report
`NotFound` after the listing is exhausted. -/
def findDevice (ident : UsbDeviceIdentifier) :
    List Entry → Except ErrKind UsbDevFsEntry
  | [] => .error .NotFound
  | e :: rest =>
    match attrU16 e.busnum with
    | none => findDevice ident rest
    | some ebus =>
      match attrU16 e.devnum with
      | none => findDevice ident rest
      | some edev =>
        match ident with
        | .BusDev bus dev =>
          if ebus == bus && edev == dev then .ok ⟨ebus, edev⟩
          else findDevice ident rest
        | .VendorProduct vid pid =>
          match e.idVendor with
          | none => findDevice ident rest
          | some vraw =>
            match e.idProduct with
            | none => findDevice ident rest
            | some praw =>
              match parseU16 16 (rtrimOne vraw.data) with
              | none => .error .InvalidData
              | some curVid =>
                match parseU16 16 (rtrimOne praw.data) with
                | none => .error .InvalidData
                | some curPid =>
                  if curVid == vid && curPid == pid then .ok ⟨ebus, edev⟩
                  else findDevice ident rest
        | .ProductName name =>
          match e.product with
          | none => findDevice ident rest
          | some craw =>
            if String.mk (rtrimOne craw.data) == name then .ok ⟨ebus, edev⟩
            else findDevice ident rest

/-! ### Reset path construction (`reset_device`, lines 128-130) -/

/-- Decimal digit character. -/
def decDigitChar (n : Nat) : Char := Char.ofNat (48 + n)

/-- Decimal representation of a natural number (fuel-based). -/
def natToDecAux : Nat → Nat → List Char
  | 0, _ => []
  | fuel + 1, n =>
    if n < 10 then [decDigitChar n]
    else natToDecAux fuel (n / 10) ++ [decDigitChar (n % 10)]

def natToDec (n : Nat) : List Char := natToDecAux (n + 1) n

/-- Rust's `{:03}` format: zero-pad the decimal representation to width 3. -/
def fmt03 (n : Nat) : List Char :=
  let s := natToDec n
  if s.length < 3 then List.replicate (3 - s.length) '0' ++ s else s

/-- Source: `format!("{}/{:03}/{:03}", USBDEVFS_PATH, usbdev.bus, usbdev.dev)`. -/
def resetPath (usbdev : UsbDevFsEntry) : String :=
  String.mk (USBDEVFS_PATH.data ++ '/' :: fmt03 usbdev.bus ++ '/' :: fmt03 usbdev.dev)

/-- Decimal value of a digit string (for stating round-trip properties). -/
def decVal (cs : List Char) : Nat :=
  cs.foldl (fun acc c => acc * 10 + (c.toNat - 48)) 0

/-! ### Identifier parsing (`main`, lines 159-177)

`main` tries three `scanf::sscanf!` patterns in order: `{u16}/{u16}`,
`{string}:{string}`, `{string}`.  The `scanf` crate is an external
dependency whose source is not part of this repository; its placeholder
semantics are modelled from the spec: a placeholder captures the input up
to the next literal separator (matched at its first occurrence), the final
placeholder captures the rest, and each capture is parsed with the target
type's `FromStr` (so a `{u16}` capture that fails the 16-bit decimal parse
fails the whole pattern). -/

/-- Split a character list at the first occurrence of `sep`. -/
def splitFirst (sep : Char) : List Char → Option (List Char × List Char)
  | [] => none
  | c :: cs =>
    if c = sep then some ([], cs)
    else (splitFirst sep cs).map (fun p => (c :: p.1, p.2))

/-- Modelled from the spec: the `sscanf!(.., "{u16}/{u16}", ..)` pattern
(the `scanf` crate is not under `src/`): split at the first `/` and parse
both captures as decimal `u16`. -/
def patternBusDev (cs : List Char) : Option (Nat × Nat) :=
  match splitFirst '/' cs with
  | some (l, r) =>
    match parseU16 10 l, parseU16 10 r with
    | some a, some b => some (a, b)
    | _, _ => none
  | none => none

/-- The identifier parser from `main` (lines 159-177): try `{u16}/{u16}`,
then `{string}:{string}` followed by base-16 `u16` parsing of both halves
(failure there aborts with `InvalidData`), otherwise take the entire
argument as a product name.  The `{string}:{string}` and `{string}`
pattern semantics are modelled from the spec (the `scanf` crate is not
under `src/`): `{string}` captures any string, including the empty one. -/
def parseIdentifier (s : String) : Except ErrKind UsbDeviceIdentifier :=
  match patternBusDev s.data with
  | some (bus, dev) => .ok (.BusDev bus dev)
  | none =>
    match splitFirst ':' s.data with
    | some (vidStr, pidStr) =>
      match parseU16 16 vidStr with
      | none => .error .InvalidData
      | some vid =>
        match parseU16 16 pidStr with
        | none => .error .InvalidData
        | some pid => .ok (.VendorProduct vid pid)
    | none => .ok (.ProductName s)

/-! ### Specification-side resolver

For the refinement claim about `find_device` we also state the resolver the
way the spec words it: a first-match search over the listing, where an entry
matches when its mandatory attributes are readable and the identifier's
fields agree.  The per-entry match condition reuses the attribute pipeline
embedded from the source. -/

/-- Whether a registry entry matches an identifier, per the spec's
per-variant dispatch (readable `busnum`/`devnum`, then field equality;
for `ProductName`, the trimmed `product` attribute compared exactly). -/
def entryMatches (ident : UsbDeviceIdentifier) (e : Entry) : Bool :=
  match attrU16 e.busnum, attrU16 e.devnum with
  | some ebus, some edev =>
    match ident with
    | .BusDev bus dev => ebus == bus && edev == dev
    | .VendorProduct vid pid =>
      match e.idVendor, e.idProduct with
      | some vraw, some praw =>
        match parseU16 16 (rtrimOne vraw.data), parseU16 16 (rtrimOne praw.data) with
        | some curVid, some curPid => curVid == vid && curPid == pid
        | _, _ => false
      | _, _ => false
    | .ProductName name =>
      match e.product with
      | some craw => String.mk (rtrimOne craw.data) == name
      | none => false
  | _, _ => false

/-- The `ResolvedDevice` produced from a matching entry (its parsed
`busnum`/`devnum`; the defaults are never used on matching entries). -/
def entryResolved (e : Entry) : UsbDevFsEntry :=
  ⟨(attrU16 e.busnum).getD 0, (attrU16 e.devnum).getD 0⟩

/-- The spec's wording of resolution: return the resolved device of the
first matching entry in enumeration order, `NotFound` when no entry
matches after the whole listing is exhausted. -/
def resolveSpec (ident : UsbDeviceIdentifier) (reg : List Entry) :
    Except ErrKind UsbDevFsEntry :=
  match reg.find? (entryMatches ident) with
  | some e => .ok (entryResolved e)
  | none => .error .NotFound

deriving instance DecidableEq for Except

/-! ### Helper lemmas: splitting at a separator -/

theorem splitFirst_eq_some {sep : Char} {cs l r : List Char}
    (h : splitFirst sep cs = some (l, r)) : cs = l ++ sep :: r ∧ sep ∉ l := by
  induction cs generalizing l r with
  | nil => simp [splitFirst] at h
  | cons c cs ih =>
    by_cases hc : c = sep
    · subst hc
      simp only [splitFirst, if_pos rfl, Option.some.injEq, Prod.mk.injEq] at h
      obtain ⟨rfl, rfl⟩ := h
      simp
    · simp only [splitFirst, if_neg hc, Option.map_eq_some'] at h
      obtain ⟨⟨l1, r1⟩, hsp, heq⟩ := h
      obtain ⟨rfl, rfl⟩ := Prod.mk.injEq .. |>.mp heq
      obtain ⟨rfl, hnot⟩ := ih hsp
      refine ⟨rfl, ?_⟩
      intro hmem
      rcases List.mem_cons.mp hmem with h1 | h1
      · exact hc h1.symm
      · exact hnot h1

theorem splitFirst_append {sep : Char} {l : List Char} (r : List Char) (hl : sep ∉ l) :
    splitFirst sep (l ++ sep :: r) = some (l, r) := by
  induction l with
  | nil => simp [splitFirst]
  | cons c cs ih =>
    have hc : c ≠ sep := fun hh => hl (by simp [hh])
    have hmem : sep ∉ cs := fun hh => hl (List.mem_cons_of_mem _ hh)
    simp only [List.cons_append, splitFirst, if_neg hc, List.append_eq, ih hmem,
      Option.map_some']

theorem splitFirst_eq_none {sep : Char} {cs : List Char} (h : sep ∉ cs) :
    splitFirst sep cs = none := by
  induction cs with
  | nil => rfl
  | cons c cs ih =>
    have hc : c ≠ sep := fun hh => h (by simp [hh])
    have hmem : sep ∉ cs := fun hh => h (List.mem_cons_of_mem _ hh)
    simp only [splitFirst, if_neg hc, ih hmem, Option.map_none']

/-! ### Helper lemmas: numeric parsing -/

theorem parseDigitsAcc_eq_none {radix : Nat} {c : Char} (hc : digitVal radix c = none) :
    ∀ (cs : List Char), c ∈ cs → ∀ acc, parseDigitsAcc radix cs acc = none := by
  intro cs
  induction cs with
  | nil => intro h; cases h
  | cons d ds ih =>
    intro hmem acc
    rcases List.mem_cons.mp hmem with rfl | hmem1
    · simp [parseDigitsAcc, hc]
    · simp only [parseDigitsAcc]
      cases hd : digitVal radix d
      · rfl
      · exact ih hmem1 _

theorem parseCore_eq_none_of_mem {radix : Nat} {c : Char} {cs : List Char}
    (hc : digitVal radix c = none) (hmem : c ∈ cs) : parseCore radix cs = none := by
  cases cs with
  | nil => cases hmem
  | cons d ds =>
    have h := parseDigitsAcc_eq_none hc _ hmem 0
    simp [parseCore, parsePos, h]

theorem parseU16_eq_none_of_mem {radix : Nat} {c : Char} {cs : List Char}
    (hc : digitVal radix c = none) (hplus : c ≠ '+')
    (hmem : c ∈ cs) : parseU16 radix cs = none := by
  cases cs with
  | nil => cases hmem
  | cons d ds =>
    by_cases h1 : d = '+'
    · subst h1
      have h2 : c ∈ ds := by
        rcases List.mem_cons.mp hmem with h3 | h3
        · exact absurd h3 hplus
        · exact h3
      simp [parseU16, parseCore_eq_none_of_mem hc h2]
    · by_cases h2 : d = '-'
      · subst h2
        simp [parseU16, h1]
      · simp [parseU16, h1, h2, parseCore_eq_none_of_mem hc hmem]

theorem parseU16_ten_eq_none_of_colon {cs : List Char} (h : ':' ∈ cs) :
    parseU16 10 cs = none :=
  parseU16_eq_none_of_mem (by decide) (by decide) h

theorem patternBusDev_eq_none_of_colon {cs : List Char} (h : ':' ∈ cs) :
    patternBusDev cs = none := by
  unfold patternBusDev
  cases hsp : splitFirst '/' cs with
  | none => rfl
  | some p =>
    obtain ⟨l, r⟩ := p
    obtain ⟨heq, hnot⟩ := splitFirst_eq_some hsp
    subst heq
    dsimp only
    rcases List.mem_append.mp h with hl | hr
    · rw [parseU16_ten_eq_none_of_colon hl]
    · rcases List.mem_cons.mp hr with h1 | h2
      · exact absurd h1 (by decide)
      · rw [parseU16_ten_eq_none_of_colon h2]
        cases parseU16 10 l <;> rfl

theorem digitVal_ten_digit {c : Char} (h1 : 48 ≤ c.toNat) (h2 : c.toNat ≤ 57) :
    digitVal 10 c = some (c.toNat - 48) := by
  have h3 : c.toNat - 48 < 10 := by omega
  simp [digitVal, h1, h2, h3]

theorem parseDigitsAcc_digits {ds : List Char}
    (h : ∀ c ∈ ds, 48 ≤ c.toNat ∧ c.toNat ≤ 57) :
    ∀ acc, parseDigitsAcc 10 ds acc =
      some (ds.foldl (fun acc c => acc * 10 + (c.toNat - 48)) acc) := by
  induction ds with
  | nil => intro acc; rfl
  | cons c cs ih =>
    intro acc
    obtain ⟨h1, h2⟩ := h c (List.mem_cons_self c cs)
    simp only [parseDigitsAcc, digitVal_ten_digit h1 h2, List.foldl_cons]
    exact ih (fun d hd => h d (List.mem_cons_of_mem _ hd)) _

theorem parseU16_ten_digits {ds : List Char} (hne : ds ≠ [])
    (h : ∀ c ∈ ds, 48 ≤ c.toNat ∧ c.toNat ≤ 57) :
    parseU16 10 ds = if decVal ds < 65536 then some (decVal ds) else none := by
  cases ds with
  | nil => exact absurd rfl hne
  | cons c cs =>
    obtain ⟨h1, h2⟩ := h c (List.mem_cons_self c cs)
    have hplus : c ≠ '+' := by
      intro hh
      subst hh
      exact absurd h1 (by decide)
    have hminus : c ≠ '-' := by
      intro hh
      subst hh
      exact absurd h1 (by decide)
    simp only [parseU16, if_neg hplus, if_neg hminus, parseCore, parsePos]
    rw [parseDigitsAcc_digits h 0]
    rfl

/-! ### Helper lemmas: attribute trimming -/

theorem rtrimOne_concat {cs : List Char} {c : Char} (h : isWsChar c = true) :
    rtrimOne (cs ++ [c]) = cs := by
  unfold rtrimOne
  rw [List.getLast?_concat]
  simp [h, List.dropLast_concat]

/-! ### Helper lemmas: the resolver scan -/

theorem resolveSpec_cons {ident : UsbDeviceIdentifier} {e : Entry} {rest : List Entry} :
    resolveSpec ident (e :: rest) =
      if entryMatches ident e then .ok (entryResolved e) else resolveSpec ident rest := by
  unfold resolveSpec
  cases h : entryMatches ident e
  · rw [List.find?_cons_of_neg _ (by simp [h]), if_neg (by simp)]
  · rw [List.find?_cons_of_pos _ h, if_pos rfl]

theorem findDevice_cons_not_vp {ident : UsbDeviceIdentifier} {e : Entry} {rest : List Entry}
    (h : ∀ v p, ident ≠ .VendorProduct v p) :
    findDevice ident (e :: rest) =
      if entryMatches ident e then .ok (entryResolved e) else findDevice ident rest := by
  cases hb : attrU16 e.busnum with
  | none =>
    have hm : entryMatches ident e = false := by simp [entryMatches, hb]
    simp [findDevice, hb, hm]
  | some ebus =>
    cases hd : attrU16 e.devnum with
    | none =>
      have hm : entryMatches ident e = false := by simp [entryMatches, hb, hd]
      simp [findDevice, hb, hd, hm]
    | some edev =>
      cases ident with
      | VendorProduct v p => exact absurd rfl (h v p)
      | BusDev bus dev =>
        have hres : entryResolved e = ⟨ebus, edev⟩ := by simp [entryResolved, hb, hd]
        cases hcond : (ebus == bus && edev == dev)
        · have hm : entryMatches (.BusDev bus dev) e = false := by
            simp only [entryMatches, hb, hd]
            exact hcond
          simp only [findDevice, hb, hd, hcond, hm, Bool.false_eq_true, if_false]
        · have hm : entryMatches (.BusDev bus dev) e = true := by
            simp only [entryMatches, hb, hd]
            exact hcond
          simp only [findDevice, hb, hd, hcond, hm, if_true, hres]
      | ProductName name =>
        cases hp : e.product with
        | none =>
          have hm : entryMatches (.ProductName name) e = false := by
            simp [entryMatches, hb, hd, hp]
          simp [findDevice, hb, hd, hp, hm]
        | some craw =>
          have hres : entryResolved e = ⟨ebus, edev⟩ := by simp [entryResolved, hb, hd]
          cases hcond : (String.mk (rtrimOne craw.data) == name)
          · have hm : entryMatches (.ProductName name) e = false := by
              simp only [entryMatches, hb, hd, hp]
              exact hcond
            simp only [findDevice, hb, hd, hp, hcond, hm, Bool.false_eq_true, if_false]
          · have hm : entryMatches (.ProductName name) e = true := by
              simp only [entryMatches, hb, hd, hp]
              exact hcond
            simp only [findDevice, hb, hd, hp, hcond, hm, if_true, hres]

/-! ### Claim theorems -/

/-- C1 (amended): for every `BusDev` or `ProductName` identifier and every
registry listing, the resolver scans entries in enumeration order, silently
skips any entry whose `busnum` or `devnum` attribute is missing or
unparseable as an unsigned 16-bit integer, returns the `ResolvedDevice` of
the first entry that matches the identifier, and fails with `NotFound`
exactly when no entry matches after the whole listing is exhausted.  (For
`VendorProduct` identifiers the scan can instead abort with `InvalidData`
on a present-but-malformed `idVendor`/`idProduct` attribute, so the claim
as stated does not hold for them; see the counterexample.) -/
theorem claimC1 (ident : UsbDeviceIdentifier) (reg : List Entry)
    (h : ∀ v p, ident ≠ .VendorProduct v p) :
    findDevice ident reg = resolveSpec ident reg ∧
    (findDevice ident reg = .error .NotFound ↔ ∀ e ∈ reg, entryMatches ident e = false) := by
  have hmain : findDevice ident reg = resolveSpec ident reg := by
    induction reg with
    | nil => rfl
    | cons e rest ih => rw [findDevice_cons_not_vp h, resolveSpec_cons, ih]
  refine ⟨hmain, ?_⟩
  rw [hmain]
  unfold resolveSpec
  cases hf : reg.find? (entryMatches ident) with
  | none =>
    rw [List.find?_eq_none] at hf
    constructor
    · intro _ e he
      exact Bool.not_eq_true _ ▸ hf e he
    · intro _
      rfl
  | some e =>
    have hme := List.find?_some hf
    constructor
    · intro hcontra
      cases hcontra
    · intro hall
      have h2 := hall e (List.mem_of_find?_eq_some hf)
      rw [hme] at h2
      cases h2

/-- Witness for C1: a `BusDev` resolution over a listing whose first entry
is missing `busnum` agrees with the spec-side first-match search. -/
theorem claimC1_witness :
    findDevice (.BusDev 1 2)
        [{ devnum := some "2" }, { busnum := some "1", devnum := some "2" }] =
      resolveSpec (.BusDev 1 2)
        [{ devnum := some "2" }, { busnum := some "1", devnum := some "2" }] ∧
    (findDevice (.BusDev 1 2)
        [{ devnum := some "2" }, { busnum := some "1", devnum := some "2" }] =
        .error .NotFound ↔
      ∀ e ∈ [({ devnum := some "2" } : Entry), { busnum := some "1", devnum := some "2" }],
        entryMatches (.BusDev 1 2) e = false) :=
  claimC1 (.BusDev 1 2)
    [{ devnum := some "2" }, { busnum := some "1", devnum := some "2" }]
    (fun _ _ hh => UsbDeviceIdentifier.noConfusion hh)

/-- Counterexample for C1 as stated: under a `VendorProduct` identifier, an
entry with readable `busnum`/`devnum` but a malformed `idVendor` aborts the
whole scan with `InvalidData` even though a later entry matches, so the
result is neither the first matching entry nor `NotFound`. -/
theorem claimC1_counterexample :
    findDevice (.VendorProduct 6699 15437)
        [{ busnum := some "1", devnum := some "1", idVendor := some "zz",
           idProduct := some "0000" },
         { busnum := some "1", devnum := some "2", idVendor := some "1a2b",
           idProduct := some "3c4d" }] =
      .error .InvalidData ∧
    entryMatches (.VendorProduct 6699 15437)
        { busnum := some "1", devnum := some "2", idVendor := some "1a2b",
          idProduct := some "3c4d" } = true ∧
    resolveSpec (.VendorProduct 6699 15437)
        [{ busnum := some "1", devnum := some "1", idVendor := some "zz",
           idProduct := some "0000" },
         { busnum := some "1", devnum := some "2", idVendor := some "1a2b",
           idProduct := some "3c4d" }] =
      .ok ⟨1, 2⟩ := by decide

/-- C2: when resolving a `VendorProduct` identifier, a scanned entry with
readable `busnum`/`devnum` is skipped (the scan continues on the rest of
the listing) when its `idVendor` or `idProduct` attribute is missing, but
when both are present and either fails the base-16 16-bit parse the whole
resolution aborts with `InvalidData`, regardless of whether the entry
would have matched or a later entry matches. -/
theorem claimC2 (e : Entry) (rest : List Entry) (vid pid ebus edev : Nat)
    (hb : attrU16 e.busnum = some ebus) (hd : attrU16 e.devnum = some edev) :
    ((e.idVendor = none ∨ e.idProduct = none) →
      findDevice (.VendorProduct vid pid) (e :: rest) =
        findDevice (.VendorProduct vid pid) rest) ∧
    (∀ vraw praw, e.idVendor = some vraw → e.idProduct = some praw →
      (parseU16 16 (rtrimOne vraw.data) = none ∨ parseU16 16 (rtrimOne praw.data) = none) →
      findDevice (.VendorProduct vid pid) (e :: rest) = .error .InvalidData) := by
  constructor
  · intro hmiss
    rcases hmiss with hv | hp
    · simp [findDevice, hb, hd, hv]
    · cases hv : e.idVendor <;> simp [findDevice, hb, hd, hv, hp]
  · intro vraw praw hv hp hbad
    rcases hbad with h1 | h1
    · simp [findDevice, hb, hd, hv, hp, h1]
    · cases h2 : parseU16 16 (rtrimOne vraw.data) <;>
        simp [findDevice, hb, hd, hv, hp, h1, h2]

/-- Witness for C2: an entry whose `idVendor` content `"zz"` is present but
not hexadecimal aborts a `VendorProduct` resolution with `InvalidData`. -/
theorem claimC2_witness :
    findDevice (.VendorProduct 6699 15437)
        [{ busnum := some "1", devnum := some "2", idVendor := some "zz",
           idProduct := some "0000" }] =
      .error .InvalidData :=
  (claimC2
      { busnum := some "1", devnum := some "2", idVendor := some "zz",
        idProduct := some "0000" }
      [] 6699 15437 1 2 (by decide) (by decide)).2
    "zz" "0000" rfl rfl (Or.inl (by decide))

/-- C3 (amended): the attribute reader trims at most ONE trailing
whitespace character (`\n`, `\t` or a space) before parsing - not a whole
trailing run.  The content `"5\n"` read for `devnum` parses as the
integer 5, and in general a decimal number followed by exactly one
trailing whitespace character parses successfully; a trailing run of
length two or more is not fully trimmed (see the counterexample). -/
theorem claimC3 :
    (∀ (cs : List Char) (c : Char), isWsChar c = true → rtrimOne (cs ++ [c]) = cs) ∧
    sysfsAttrU16 "5\n" = some 5 ∧
    (∀ (ds : List Char) (c : Char), ds ≠ [] →
      (∀ d ∈ ds, 48 ≤ d.toNat ∧ d.toNat ≤ 57) → decVal ds < 65536 → isWsChar c = true →
      sysfsAttrU16 (String.mk (ds ++ [c])) = some (decVal ds)) := by
  refine ⟨fun cs c h => rtrimOne_concat h, by decide, ?_⟩
  intro ds c hne hdig hlt hws
  show parseU16 10 (rtrimOne (ds ++ [c])) = _
  rw [rtrimOne_concat hws, parseU16_ten_digits hne hdig, if_pos hlt]

/-- Witness for C3: the digit list of `"5"` with a trailing newline. -/
theorem claimC3_witness :
    rtrimOne (['5'] ++ ['\n']) = ['5'] ∧
    sysfsAttrU16 (String.mk (['5'] ++ ['\n'])) = some (decVal ['5']) :=
  ⟨claimC3.1 ['5'] '\n' rfl,
   claimC3.2.2 ['5'] '\n' (by decide) (by decide) (by decide) rfl⟩

/-- Counterexample for C3 as stated: the content `"5\n\n"` consists of a
valid number followed by a trailing run of newlines, yet it does not parse
(only one character is trimmed, leaving `"5\n"`). -/
theorem claimC3_counterexample :
    sysfsAttrU16 "5\n\n" = none ∧ sysfsAttrRaw "5\n\n" = "5\n" := by decide

/-- C4: the identifier parser tries the patterns in a fixed precedence
order - first the bus/dev pattern yielding `BusDev`, then the
colon-separated pair yielding `VendorProduct` (or an `InvalidData` abort
when a half fails the hex parse), then the whole argument as
`ProductName` - and the first pattern that succeeds determines the
resulting variant; at most one variant is produced. -/
theorem claimC4 (s : String) :
    (∀ bus dev, patternBusDev s.data = some (bus, dev) →
      parseIdentifier s = .ok (.BusDev bus dev)) ∧
    (∀ l r, patternBusDev s.data = none → splitFirst ':' s.data = some (l, r) →
      (∃ vid pid, parseU16 16 l = some vid ∧ parseU16 16 r = some pid ∧
        parseIdentifier s = .ok (.VendorProduct vid pid)) ∨
      parseIdentifier s = .error .InvalidData) ∧
    (patternBusDev s.data = none → splitFirst ':' s.data = none →
      parseIdentifier s = .ok (.ProductName s)) ∧
    (∀ i1 i2, parseIdentifier s = .ok i1 → parseIdentifier s = .ok i2 → i1 = i2) := by
  refine ⟨?_, ?_, ?_, ?_⟩
  · intro bus dev hp
    simp [parseIdentifier, hp]
  · intro l r hp hs
    simp only [parseIdentifier, hp, hs]
    cases hv : parseU16 16 l with
    | none => exact Or.inr rfl
    | some vid =>
      cases hpd : parseU16 16 r with
      | none => exact Or.inr rfl
      | some pid => exact Or.inl ⟨vid, pid, rfl, rfl, rfl⟩
  · intro hp hs
    simp [parseIdentifier, hp, hs]
  · intro i1 i2 h1 h2
    rw [h1] at h2
    exact Except.ok.inj h2

/-- Witness for C4: the first pattern fires on `"1/2"`; the fallback
fires on `"abc"`. -/
theorem claimC4_witness :
    parseIdentifier "1/2" = .ok (.BusDev 1 2) ∧
    parseIdentifier "abc" = .ok (.ProductName "abc") :=
  ⟨(claimC4 "1/2").1 1 2 rfl, (claimC4 "abc").2.2.1 rfl rfl⟩

/-- C5 (amended): every argument string that does not match the bus/dev
pattern and contains no colon is accepted wholly as a literal
`ProductName` - including strings containing `/` in positions that do not
fit the bus/dev pattern.  Strings containing a colon, however, always
enter the vendor:product branch and never fall through to `ProductName`
(a product name containing a colon aborts with `InvalidData` when its
halves are not hexadecimal; see the counterexample). -/
theorem claimC5 (s : String) (h1 : patternBusDev s.data = none) (h2 : ':' ∉ s.data) :
    parseIdentifier s = .ok (.ProductName s) := by
  simp [parseIdentifier, h1, splitFirst_eq_none h2]

/-- Witness for C5: `"a/b"` contains `/` in a position that does not fit
the bus/dev pattern and is accepted as a product name. -/
theorem claimC5_witness : parseIdentifier "a/b" = .ok (.ProductName "a/b") :=
  claimC5 "a/b" (by decide) (by decide)

/-- Counterexample for C5 as stated: the product name `"My:Widget"`
contains a colon in a position that fits neither stricter pattern's
numeric requirements, yet it is NOT accepted as a `ProductName`: the
parser aborts with `InvalidData`. -/
theorem claimC5_counterexample :
    parseIdentifier "My:Widget" = .error .InvalidData ∧
    parseIdentifier "My:Widget" ≠ .ok (.ProductName "My:Widget") := by decide

/-- C6 (amended): for every argument of the form `a/b` with `a` and `b`
nonempty decimal digit strings, the parser yields `BusDev` with exactly
those two values when both fit in 16 bits; when either value does not fit
in 16 bits the bus/dev pattern merely fails to match, and the argument
falls through and is accepted as a `ProductName` of the whole string -
parsing does NOT fail with `InvalidData` (see the counterexample). -/
theorem claimC6 (ds1 ds2 : List Char) (h1 : ds1 ≠ []) (h2 : ds2 ≠ [])
    (hd1 : ∀ c ∈ ds1, 48 ≤ c.toNat ∧ c.toNat ≤ 57)
    (hd2 : ∀ c ∈ ds2, 48 ≤ c.toNat ∧ c.toNat ≤ 57) :
    (decVal ds1 < 65536 → decVal ds2 < 65536 →
      parseIdentifier (String.mk (ds1 ++ '/' :: ds2)) =
        .ok (.BusDev (decVal ds1) (decVal ds2))) ∧
    (65536 ≤ decVal ds1 ∨ 65536 ≤ decVal ds2 →
      parseIdentifier (String.mk (ds1 ++ '/' :: ds2)) =
        .ok (.ProductName (String.mk (ds1 ++ '/' :: ds2)))) := by
  have hslash : '/' ∉ ds1 := by
    intro hmem
    exact absurd (hd1 _ hmem) (by decide)
  have hsp : splitFirst '/' (ds1 ++ '/' :: ds2) = some (ds1, ds2) := splitFirst_append _ hslash
  constructor
  · intro hb1 hb2
    have hpat : patternBusDev (ds1 ++ '/' :: ds2) = some (decVal ds1, decVal ds2) := by
      unfold patternBusDev
      rw [hsp]
      dsimp only
      rw [parseU16_ten_digits h1 hd1, parseU16_ten_digits h2 hd2, if_pos hb1, if_pos hb2]
    simp [parseIdentifier, hpat]
  · intro hover
    have hpat : patternBusDev (ds1 ++ '/' :: ds2) = none := by
      unfold patternBusDev
      rw [hsp]
      dsimp only
      rw [parseU16_ten_digits h1 hd1, parseU16_ten_digits h2 hd2]
      rcases hover with hov | hov
      · rw [if_neg (Nat.not_lt.mpr hov)]
      · rw [if_neg (Nat.not_lt.mpr hov)]
        cases h3 : (if decVal ds1 < 65536 then some (decVal ds1) else none) <;> rfl
    have hcolon : ':' ∉ ds1 ++ '/' :: ds2 := by
      intro hmem
      rcases List.mem_append.mp hmem with hm | hm
      · exact absurd (hd1 _ hm) (by decide)
      · rcases List.mem_cons.mp hm with hm1 | hm1
        · exact absurd hm1 (by decide)
        · exact absurd (hd2 _ hm1) (by decide)
    simp [parseIdentifier, hpat, splitFirst_eq_none hcolon]

/-- Witness for C6: `"1/2"` parses to `BusDev`; `"70000/2"` (70000 does
not fit in 16 bits) falls through to `ProductName`. -/
theorem claimC6_witness :
    parseIdentifier (String.mk (['1'] ++ '/' :: ['2'])) =
      .ok (.BusDev (decVal ['1']) (decVal ['2'])) ∧
    parseIdentifier (String.mk (['7', '0', '0', '0', '0'] ++ '/' :: ['2'])) =
      .ok (.ProductName (String.mk (['7', '0', '0', '0', '0'] ++ '/' :: ['2']))) :=
  ⟨(claimC6 ['1'] ['2'] (by decide) (by decide) (by decide) (by decide)).1
      (by decide) (by decide),
   (claimC6 ['7', '0', '0', '0', '0'] ['2'] (by decide) (by decide) (by decide)
      (by decide)).2 (Or.inl (by decide))⟩

/-- Counterexample for C6 as stated: `"70000/2"` has a decimal segment
exceeding 16 bits, and parsing does not fail with `InvalidData`, it
yields `ProductName "70000/2"`. -/
theorem claimC6_counterexample :
    parseIdentifier "70000/2" = .ok (.ProductName "70000/2") ∧
    parseIdentifier "70000/2" ≠ .error .InvalidData := by decide

/-- C7: for every argument string of the form `left:right` (split at the
first colon), the parser yields `VendorProduct` with `vid`/`pid` equal to
the two halves decoded as base-16 16-bit integers when both decode; when
either half is not valid hexadecimal or exceeds 16 bits, parsing fails
with `InvalidData`. -/
theorem claimC7 (l r : List Char) (hl : ':' ∉ l) :
    (∀ vid pid, parseU16 16 l = some vid → parseU16 16 r = some pid →
      parseIdentifier (String.mk (l ++ ':' :: r)) = .ok (.VendorProduct vid pid)) ∧
    ((parseU16 16 l = none ∨ parseU16 16 r = none) →
      parseIdentifier (String.mk (l ++ ':' :: r)) = .error .InvalidData) := by
  have hcolon : ':' ∈ l ++ ':' :: r :=
    List.mem_append.mpr (Or.inr (List.mem_cons_self _ _))
  have hpat : patternBusDev (l ++ ':' :: r) = none := patternBusDev_eq_none_of_colon hcolon
  have hsp : splitFirst ':' (l ++ ':' :: r) = some (l, r) := splitFirst_append _ hl
  constructor
  · intro vid pid hv hp
    simp [parseIdentifier, hpat, hsp, hv, hp]
  · intro hbad
    rcases hbad with hnone | hnone
    · simp [parseIdentifier, hpat, hsp, hnone]
    · cases h2 : parseU16 16 l <;> simp [parseIdentifier, hpat, hsp, hnone, h2]

/-- Witness for C7: `"1a2b:3c4d"` decodes to vendor 0x1a2b and product
0x3c4d; `"My:Widget"` fails with `InvalidData`. -/
theorem claimC7_witness :
    parseIdentifier (String.mk ("1a2b".data ++ ':' :: "3c4d".data)) =
      .ok (.VendorProduct 6699 15437) ∧
    parseIdentifier (String.mk ("My".data ++ ':' :: "Widget".data)) =
      .error .InvalidData :=
  ⟨(claimC7 "1a2b".data "3c4d".data (by decide)).1 6699 15437 rfl rfl,
   (claimC7 "My".data "Widget".data (by decide)).2 (Or.inl rfl)⟩

set_option maxRecDepth 40000 in
/-- C8: the reset step builds the control-node path from the fixed root by
formatting bus and device numbers as zero-padded 3-digit decimal segments:
every value below 1000 formats to exactly three decimal digit characters
that decode back to the value, and the device `{bus:2, dev:5}` yields the
path `/dev/bus/usb//002/005` (the root constant carries a trailing slash,
so the separator is doubled - path-equivalent to `.../002/005`). -/
theorem claimC8 :
    (∀ n, n < 1000 → (fmt03 n).length = 3 ∧ decVal (fmt03 n) = n ∧
      ∀ c ∈ fmt03 n, 48 ≤ c.toNat ∧ c.toNat ≤ 57) ∧
    (∀ d : UsbDevFsEntry,
      resetPath d =
        String.mk (USBDEVFS_PATH.data ++ '/' :: fmt03 d.bus ++ '/' :: fmt03 d.dev)) ∧
    resetPath ⟨2, 5⟩ = "/dev/bus/usb//002/005" := by
  refine ⟨?_, fun d => rfl, by decide⟩
  decide

/-- Witness for C8: the zero-padding property evaluated at 2. -/
theorem claimC8_witness : (fmt03 2).length = 3 ∧ decVal (fmt03 2) = 2 :=
  ⟨(claimC8.1 2 (by decide)).1, (claimC8.1 2 (by decide)).2.1⟩

/-- C9: the reset control-command constant is the fixed 32-bit encoding
with direction `IOC_NONE = 0` in the direction field, the ASCII code of
the letter U (85) in the type field (shift 8), command number 20 in the
number field (shift 0), and size 0 - so `USBDEVFS_RESET` equals
`(85 <<< 8) ||| 20 = 0x5514`; it is a compile-time constant of the
embedding, derived from no user input. -/
theorem claimC9 :
    USBDEVFS_RESET = 0x5514 ∧
    USBDEVFS_RESET = (85 <<< 8) ||| 20 ∧
    USBDEVFS_RESET = iocEncode IOC_NONE 85 20 0 ∧
    IOC_NONE = 0 ∧ IOC_DIRSHIFT = 30 ∧ IOC_TYPESHIFT = 8 ∧ IOC_SIZESHIFT = 16 ∧
    IOC_NRSHIFT = 0 ∧ USBDEVFS_RESET < 2 ^ 32 := by decide

/-- C10: the empty argument string matches neither the bus/dev pattern nor
the hex-pair pattern and is accepted as `ProductName ""`, so an empty (as
opposed to absent) argument proceeds to resolution rather than raising
`InvalidInput` or `InvalidData`. -/
theorem claimC10 : parseIdentifier "" = .ok (.ProductName "") := by decide

end UsbReset
